import Mathlib

/-! Shallow embedding of `pkg/etcd/s3.go` (S3-backed etcd snapshot storage).

Pure string manipulation from the Go standard library (`path.Join`,
`filepath.Base`, `strings.CutSuffix`, `strconv.ParseInt`,
`base64.StdEncoding.EncodeToString`) is reimplemented here; the minio
client (network) and the local filesystem are modelled by explicit state
(a bucket is a `List ObjectInfo`) or by outcome parameters supplied by the
environment.
-/

namespace K3sS3

/-! Section: Go standard library string helpers.

The Lean core string functions (`String.startsWith`, `String.splitOn`, …)
are defined by well-founded recursion over byte positions, which the
kernel cannot evaluate; the equivalents below recurse structurally over
the character list so that concrete instances reduce. -/

/-- Predicate `beginsWithL pre l`: true when `pre` is an initial segment of `l`. -/
def beginsWithL : List Char → List Char → Bool
  | [], _ => true
  | _ :: _, [] => false
  | c :: cs, d :: ds => c == d && beginsWithL cs ds

/-- Go `strings.HasPrefix s pre` / minio key-prefix matching. -/
def strStartsWith (s pre : String) : Bool :=
  beginsWithL pre.data s.data

/-- Go `strings.HasSuffix s post`. -/
def strEndsWith (s post : String) : Bool :=
  beginsWithL post.data.reverse s.data.reverse

/-- Predicate `containsSubL l sub`: true when `sub` occurs contiguously in `l`. -/
def containsSubL (l sub : List Char) : Bool :=
  match l with
  | [] => sub.isEmpty
  | _ :: rest => beginsWithL sub l || containsSubL rest sub

/-- Go `strings.Contains`. -/
def stringContains (s sub : String) : Bool :=
  containsSubL s.data sub.data

/-- Go `path.Join` (and `filepath.Join` on slash paths) restricted to two
components.  Go joins the non-empty elements with `/` and then applies
`path.Clean`; for the already-clean, non-empty-component inputs this file
uses it coincides with plain concatenation. -/
def pathJoin (a b : String) : String :=
  if a = "" then b else if b = "" then a else a ++ "/" ++ b

/-- Go `path.Base` / `filepath.Base` (slash separators): empty input gives
`"."`; trailing slashes are stripped; the last path component is returned;
an all-slash input gives `"/"`. -/
def pathBase (p : String) : String :=
  if p = "" then "."
  else
    let q : List Char := p.data.reverse.dropWhile (fun c => c == '/')
    if q = [] then "/"
    else ⟨(q.takeWhile (fun c => c != '/')).reverse⟩

/-- Go `strings.CutSuffix`: returns the string without the suffix and
whether the suffix was present. -/
def cutSuffix (s sfx : String) : String × Bool :=
  if strEndsWith s sfx then
    (⟨s.data.take (s.data.length - sfx.data.length)⟩, true)
  else (s, false)

/-- The slice `basename[strings.LastIndexByte(basename, 0x2d)+1:]`: the text
after the last hyphen, or the whole string when there is no hyphen. -/
def afterLastHyphen (s : String) : String :=
  ⟨(s.data.reverse.takeWhile (fun c => c != '-')).reverse⟩

/-- Decimal value of a digit string (helper for the `strconv.ParseInt`
model). -/
def digitsValL (l : List Char) : Nat :=
  l.foldl (fun a c => a * 10 + (c.toNat - 48)) 0

def digitsVal (s : String) : Nat := digitsValL s.data

/-- Go `strconv.ParseInt(s, 10, 64)`: an optional leading sign followed by
at least one decimal digit, with the signed value required to fit in 64
bits; every other input (including out-of-range values) is an error,
modelled as `none`. -/
def parseInt64 (s : String) : Option Int :=
  match s.data with
  | [] => none
  | c :: rest =>
    let p : Bool × List Char :=
      if c = '+' then (false, rest)
      else if c = '-' then (true, rest)
      else (false, c :: rest)
    let ds := p.2
    if ds = [] then none
    else if ds.all Char.isDigit then
      let v : Int := if p.1 then -(digitsValL ds : Int) else (digitsValL ds : Int)
      if -(2 ^ 63) ≤ v ∧ v ≤ 2 ^ 63 - 1 then some v else none
    else none

/-! Section: Go `base64.StdEncoding.EncodeToString` over the UTF-8 bytes of
a string (Go's `[]byte(s)` conversion). -/

/-- UTF-8 encoding of one Unicode scalar value, as Go's `[]byte(string)`
produces it. -/
def utf8Bytes (c : Char) : List UInt8 :=
  let n := c.toNat
  if n < 0x80 then [UInt8.ofNat n]
  else if n < 0x800 then
    [UInt8.ofNat (0xC0 + n / 64), UInt8.ofNat (0x80 + n % 64)]
  else if n < 0x10000 then
    [UInt8.ofNat (0xE0 + n / 4096), UInt8.ofNat (0x80 + n / 64 % 64),
     UInt8.ofNat (0x80 + n % 64)]
  else
    [UInt8.ofNat (0xF0 + n / 262144), UInt8.ofNat (0x80 + n / 4096 % 64),
     UInt8.ofNat (0x80 + n / 64 % 64), UInt8.ofNat (0x80 + n % 64)]

def stringUTF8 (s : String) : List UInt8 :=
  (s.data.map utf8Bytes).flatten

def base64Alphabet : List Char :=
  "ABCDEFGHIJKLMNOPQRSTUVWXYZabcdefghijklmnopqrstuvwxyz0123456789+/".data

def b64c (n : Nat) : Char := base64Alphabet.getD n 'A'

/-- RFC 4648 standard base64 with padding, three input bytes at a time. -/
def base64EncodeBytes : List UInt8 → List Char
  | [] => []
  | [b1] =>
    let n := b1.toNat
    [b64c (n / 4), b64c (n % 4 * 16), '=', '=']
  | [b1, b2] =>
    let n := b1.toNat * 256 + b2.toNat
    [b64c (n / 1024), b64c (n / 16 % 64), b64c (n % 16 * 4), '=']
  | b1 :: b2 :: b3 :: rest =>
    let n := b1.toNat * 65536 + b2.toNat * 256 + b3.toNat
    b64c (n / 262144) :: b64c (n / 4096 % 64) :: b64c (n / 64 % 64) ::
      b64c (n % 64) :: base64EncodeBytes rest

/-- Go `base64.StdEncoding.EncodeToString([]byte(s))`. -/
def base64OfString (s : String) : String :=
  ⟨base64EncodeBytes (stringUTF8 s)⟩

/-! Section: data model. -/

/-- The fields of `config.Control` consumed by `s3.go`. -/
structure Control where
  etcdS3 : Bool
  etcdS3Endpoint : String
  etcdS3EndpointCA : String
  etcdS3SkipSSLVerify : Bool
  etcdS3AccessKey : String
  etcdS3SecretKey : String
  etcdS3BucketName : String
  etcdS3Region : String
  etcdS3Folder : String
  etcdS3Insecure : Bool
  etcdSnapshotName : String
  etcdSnapshotRetention : Int
  clusterResetRestorePath : String
deriving DecidableEq, Repr

/-- Fields of `minio.ObjectInfo` as far as `s3.go` reads it: key, last-modified time
(Unix seconds, `LastModified.Unix()`), and size in bytes. -/
structure ObjectInfo where
  key : String
  lastModified : Int
  size : Int
deriving DecidableEq, Repr

/-- Abstract model of a byte string as the PEM and X.509 decoders see it:
whether `pem.Decode` finds a block, and whether `x509.ParseCertificates`
accepts that block's bytes.  The decoders themselves are outside this
repository; only these two outcomes are observable by `s3.go`. -/
structure CABytes where
  hasPemBlock : Bool
  pemBlockParses : Bool
deriving DecidableEq, Repr

/-- Fields of `tls.Config` as far as `s3.go` writes it. -/
structure TLSClientConfig where
  rootCAs : Option CABytes
  insecureSkipVerify : Bool
deriving DecidableEq, Repr

/-- Fields of `http.Transport` as far as `s3.go` writes it; `http.DefaultTransport`
starts with a nil `TLSClientConfig`. -/
structure Transport where
  tlsClientConfig : Option TLSClientConfig
deriving DecidableEq, Repr

def Transport.default : Transport := { tlsClientConfig := none }

/-- The `minio.BucketLookupType` values (`Auto`, `DNS` = virtual-host-style,
`Path` = path-style). -/
inductive BucketLookupType
  | auto
  | dns
  | path
deriving DecidableEq, Repr

/-- The credential provider chosen by `NewS3`: `credentials.NewIAM("")`
or `credentials.NewStaticV4(access, secret, "")`. -/
inductive Creds
  | iam (endpoint : String)
  | staticV4 (access secret token : String)
deriving DecidableEq, Repr

/-- Modelled from the spec: snapshot outcome status
(`successfulSnapshotStatus` / `failedSnapshotStatus` are declared outside
`src/`); `none` is the Go zero value of the status field. -/
inductive SnapshotStatus
  | successful
  | failed
deriving DecidableEq, Repr

/-- The `s3Config` block embedded into every snapshot record. -/
structure S3ConfigRec where
  endpoint : String
  endpointCA : String
  skipSSLVerify : Bool
  bucket : String
  region : String
  folder : String
  insecure : Bool
deriving DecidableEq, Repr

/-- Fields of `snapshotFile` as far as `s3.go` writes it (the struct itself is
declared outside `src/`; fields are taken from the writes in `upload` and
`listSnapshots`; `createdAt` is Unix seconds). -/
structure SnapshotFile where
  name : String
  nodeName : String
  createdAt : Int
  size : Int
  status : Option SnapshotStatus
  message : String
  s3 : Option S3ConfigRec
  compressed : Bool
deriving DecidableEq, Repr

/-- Modelled from the spec: the one recognized compressed-archive
extension. `compressedExtension` is declared outside `src/`; the paired
content type `application/zip` in `upload` fixes it as `.zip`. -/
def compressedExtension : String := ".zip"

def s3ConfigOf (cfg : Control) : S3ConfigRec :=
  { endpoint := cfg.etcdS3Endpoint
    endpointCA := cfg.etcdS3EndpointCA
    skipSSLVerify := cfg.etcdS3SkipSSLVerify
    bucket := cfg.etcdS3BucketName
    region := cfg.etcdS3Region
    folder := cfg.etcdS3Folder
    insecure := cfg.etcdS3Insecure }

/-- Outcomes supplied by the world outside `s3.go`: base64-decode of the
CA reference (`base64.StdEncoding.DecodeString`), reading it as a file
(`os.ReadFile`), and the bucket-existence probe (`client.BucketExists`,
a network call). -/
structure S3Env where
  base64DecodeCA : String → Option CABytes
  readFileCA : String → Except String CABytes
  bucketExists : String → Except String Bool

/-! Section: certificate handling (`readS3EndpointCA`, `isValidCertificate`,
`setTransportCA`). -/

/-- Model of `isValidCertificate`: `pem.Decode` must find a block and
`x509.ParseCertificates` must accept it. -/
def isValidCertificate (c : CABytes) : Bool :=
  if ¬ c.hasPemBlock then false
  else if ¬ c.pemBlockParses then false
  else true

/-- Model of `readS3EndpointCA`: try base64-decoding the value; on decode failure
fall back to reading it as a file path. -/
def readS3EndpointCA (env : S3Env) (endpointCA : String) : Except String CABytes :=
  match env.base64DecodeCA endpointCA with
  | some ca => .ok ca
  | none => env.readFileCA endpointCA

/-- Model of `setTransportCA`: decode the CA, reject it unless it is a valid
certificate, then install a cert pool built from it plus the skip-verify
flag into the transport's TLS config. -/
def setTransportCA (env : S3Env) (tr : Transport) (endpointCA : String)
    (insecureSkipVerify : Bool) : Except String Transport :=
  match readS3EndpointCA env endpointCA with
  | .error e => .error e
  | .ok ca =>
    if ¬ isValidCertificate ca then
      .error "endpoint-ca is not a valid x509 certificate"
    else
      let tls : TLSClientConfig :=
        { rootCAs := some ca, insecureSkipVerify := insecureSkipVerify }
      .ok { tr with tlsClientConfig := some tls }

/-- Model of `bucketLookupType`: endpoints containing `aliyun` get DNS
(virtual-host-style) addressing for RKE1 backwards compatibility;
everything else gets automatic detection. -/
def bucketLookupType (endpoint : String) : BucketLookupType :=
  if stringContains endpoint "aliyun" then .dns else .auto

/-! Section: `NewS3`. -/

/-- The `switch` in `NewS3` building the transport: a custom CA wins;
otherwise TLS verification is skipped only when both `EtcdS3` and
`EtcdS3SkipSSLVerify` are set; otherwise the default transport is left
untouched. -/
def buildTransport (env : S3Env) (cfg : Control) : Except String Transport :=
  if cfg.etcdS3EndpointCA ≠ "" then
    setTransportCA env Transport.default cfg.etcdS3EndpointCA cfg.etcdS3SkipSSLVerify
  else if cfg.etcdS3 && cfg.etcdS3SkipSSLVerify then
    .ok { tlsClientConfig :=
      some { rootCAs := none, insecureSkipVerify := cfg.etcdS3SkipSSLVerify } }
  else
    .ok Transport.default

/-- Credential selection in `NewS3`. -/
def selectCreds (cfg : Control) : Creds :=
  if cfg.etcdS3AccessKey.length = 0 ∧ cfg.etcdS3SecretKey.length = 0 then
    .iam ""
  else
    .staticV4 cfg.etcdS3AccessKey cfg.etcdS3SecretKey ""

/-- The connected handle: the configuration plus the minio client options
`NewS3` passes to `minio.New`. -/
structure S3Handle where
  cfg : Control
  transport : Transport
  creds : Creds
  secure : Bool
  region : String
  bucketLookup : BucketLookupType
deriving DecidableEq, Repr

/-- Observable side effects of `NewS3`, in order: configuring a transport
and the bucket-existence network probe. -/
inductive NewS3Event
  | transportConfigured
  | bucketExistsCheck (bucket : String)
deriving DecidableEq, Repr

/-- Model of `NewS3`: reject an empty bucket name before doing anything else; build
the transport and credentials; construct the client; probe the bucket for
existence (failing on probe error or absence). -/
def newS3 (env : S3Env) (cfg : Control) :
    Except String S3Handle × List NewS3Event :=
  if cfg.etcdS3BucketName = "" then
    (.error "s3 bucket name was not set", [])
  else
    match buildTransport env cfg with
    | .error e => (.error e, [.transportConfigured])
    | .ok tr =>
      match env.bucketExists cfg.etcdS3BucketName with
      | .error e =>
        (.error e, [.transportConfigured, .bucketExistsCheck cfg.etcdS3BucketName])
      | .ok false =>
        (.error ("bucket: " ++ cfg.etcdS3BucketName ++ " does not exist"),
          [.transportConfigured, .bucketExistsCheck cfg.etcdS3BucketName])
      | .ok true =>
        (.ok { cfg := cfg, transport := tr, creds := selectCreds cfg,
               secure := !cfg.etcdS3Insecure, region := cfg.etcdS3Region,
               bucketLookup := bucketLookupType cfg.etcdS3Endpoint },
          [.transportConfigured, .bucketExistsCheck cfg.etcdS3BucketName])

/-! Section: `upload`. -/

/-- Fields of `minio.UploadInfo` as far as `upload` reads it. -/
structure UploadInfo where
  size : Int
deriving DecidableEq, Repr

/-- The `FPutObject` request `upload` issues (bucket, destination key,
content type, and the fixed two-thread option). -/
structure PutRequest where
  bucket : String
  key : String
  contentType : String
  numThreads : Nat
deriving DecidableEq, Repr

/-- Model of `upload`: build the record skeleton, compute the destination key as
folder ++ base name, classify by the compressed-archive suffix, issue the
put (its outcome is supplied by the environment), then fill in status,
message and size.  Returns the record, the request issued, and the error
passed through to the caller. -/
def upload (cfg : Control) (snapshot : String) (now : Int)
    (putOutcome : Except String UploadInfo) :
    SnapshotFile × PutRequest × Option String :=
  let basename := pathBase snapshot
  let sf : SnapshotFile :=
    { name := basename, nodeName := "s3", createdAt := now, size := 0,
      status := none, message := "", s3 := some (s3ConfigOf cfg),
      compressed := false }
  let snapshotKey := pathJoin cfg.etcdS3Folder basename
  let isZip := strEndsWith snapshot compressedExtension
  let contentType := if isZip then "application/zip" else "application/octet-stream"
  let sf := if isZip then { sf with compressed := true } else sf
  let req : PutRequest :=
    { bucket := cfg.etcdS3BucketName, key := snapshotKey,
      contentType := contentType, numThreads := 2 }
  match putOutcome with
  | .error e =>
    ({ sf with status := some .failed, message := base64OfString e }, req, some e)
  | .ok info =>
    ({ sf with status := some .successful, size := info.size }, req, none)

/-! Section: `Download`. -/

/-- The lazily-fetched object `client.GetObject` hands back: the minio
reader performs no network I/O at the call, so the only thing `Download`
ever observes of it is the outcome of the first `Stat`, where a
nonexistent key surfaces as the NoSuchKey error. -/
structure ObjectHandle where
  stat : Except String ObjectInfo
deriving Repr

/-- Model of `client.GetObject`: lazy — it fails immediately only on
argument validation (an empty object name); for any valid key it returns
a handle whose first `Stat` reports the object's info, or the NoSuchKey
error when no such key exists in the bucket. -/
def getObject (bucket : List ObjectInfo) (key : String) :
    Except String ObjectHandle :=
  if key = "" then .error "Object name cannot be empty"
  else
    .ok { stat :=
      match bucket.find? (fun o => o.key == key) with
      | some o => .ok o
      | none => .error "The specified key does not exist." }

/-- State after `Download`: the local files (path, size), the updated
`ClusterResetRestorePath` if any, and the returned error. -/
structure DownloadOutcome where
  fs : List (String × Int)
  resolvedRestorePath : Option String
  error : Option String
deriving DecidableEq, Repr

/-- Model of `Download`: compute the source key and call `GetObject`; an
immediate fetch error returns nil with nothing touched.  Otherwise
resolve the snapshot directory, `os.Create` the destination (an empty
truncated file — this happens BEFORE the first read of the lazy object),
then `Stat` the reader: a Stat failure (a nonexistent key in particular)
returns that error with the empty created file left in place; on success
copy exactly the reported size, record the resolved path and chmod 0600
(successful local I/O is modelled as such). -/
def download (cfg : Control) (get : Except String ObjectHandle)
    (snapDir : Except String String) (fs : List (String × Int)) :
    DownloadOutcome :=
  match get with
  | .error _ => { fs := fs, resolvedRestorePath := none, error := none }
  | .ok r =>
    match snapDir with
    | .error e =>
      { fs := fs, resolvedRestorePath := none,
        error := some ("failed to get the snapshot dir: " ++ e) }
    | .ok dir =>
      let full := pathJoin dir cfg.clusterResetRestorePath
      match r.stat with
      | .error e =>
        { fs := (full, 0) :: fs.filter (fun p => p.1 != full),
          resolvedRestorePath := none, error := some e }
      | .ok obj =>
        { fs := (full, obj.size) :: fs.filter (fun p => p.1 != full),
          resolvedRestorePath := some full, error := none }

/-! Section: listing (`client.ListObjects`, `listSnapshots`). -/

/-- Model of `client.ListObjects`: all keys under the given key string when
`Recursive` is set; otherwise only objects with no further `/` past it
(the common-prefix marker entries a shallow listing also yields carry
size 0 and are only ever consumed by `listSnapshots`, which drops
zero-size entries, so they are omitted here). -/
def listObjects (bucket : List ObjectInfo) (pfx : String) (recursive : Bool) :
    List ObjectInfo :=
  bucket.filter (fun o =>
    strStartsWith o.key pfx &&
      (recursive || !((o.key.data.drop pfx.data.length).contains '/')))

/-- The source helper giving the snapshot-name scan key: folder joined with the configured
snapshot base name. -/
def snapshotPfx (cfg : Control) : String :=
  pathJoin cfg.etcdS3Folder cfg.etcdSnapshotName

/-- Modelled from the spec: `generateSnapshotConfigMapKey` is declared
outside `src/`; the spec only requires a deterministic, collision-resistant
key derived from the record's fields (distinct even when records differ
only in the timestamp fallback). -/
def generateSnapshotConfigMapKey (sf : SnapshotFile) : String :=
  sf.nodeName ++ "-" ++ sf.name ++ "-" ++ toString sf.createdAt

/-- Timestamp reconstruction in `listSnapshots`: parse the digits after the
last hyphen of the suffix-stripped base name; fall back to the object's
last-modified time when parsing fails. -/
def snapshotTimestamp (obj : ObjectInfo) : Int :=
  match parseInt64 (afterLastHyphen (cutSuffix (pathBase obj.key) compressedExtension).1) with
  | some ts => ts
  | none => obj.lastModified

/-- The record `listSnapshots` builds for one listed object. -/
def snapshotRecordOf (cfg : Control) (obj : ObjectInfo) : SnapshotFile :=
  { name := pathBase obj.key, nodeName := "s3",
    createdAt := snapshotTimestamp obj, size := obj.size,
    status := some .successful, message := "", s3 := some (s3ConfigOf cfg),
    compressed := (cutSuffix (pathBase obj.key) compressedExtension).2 }

def listEntryOf (cfg : Control) (obj : ObjectInfo) : String × SnapshotFile :=
  (generateSnapshotConfigMapKey (snapshotRecordOf cfg obj), snapshotRecordOf cfg obj)

/-- Model of `listSnapshots`: a non-empty folder is listed recursively under the
folder; an empty folder uses the zero-value listing options (whole bucket,
NOT recursive).  Zero-size objects are skipped; each survivor yields one
keyed record. -/
def listSnapshots (cfg : Control) (bucket : List ObjectInfo) :
    List (String × SnapshotFile) :=
  let objs :=
    if cfg.etcdS3Folder ≠ "" then listObjects bucket cfg.etcdS3Folder true
    else listObjects bucket "" false
  (objs.filter (fun o => o.size != 0)).map (listEntryOf cfg)

/-- The listing the spec's words describe for claim C8: recursive under the
folder in every case, an empty folder covering the whole bucket; used only
to compare against `listSnapshots` above. -/
def listSnapshotsSpecWords (cfg : Control) (bucket : List ObjectInfo) :
    List (String × SnapshotFile) :=
  ((listObjects bucket cfg.etcdS3Folder true).filter (fun o => o.size != 0)).map
    (listEntryOf cfg)

/-! Section: `snapshotRetention`. -/

/-- The sort in `snapshotRetention` orders newest first:
`sort.Slice` with `less i j := files[j].LastModified.Before(files[i].LastModified)`.
`sort.Slice` is unstable, so any permutation sorted by this relation is a
faithful model; insertion sort is used for its executable, structurally
recursive definition. -/
def newestFirst (a b : ObjectInfo) : Prop :=
  b.lastModified ≤ a.lastModified

instance : DecidableRel newestFirst := fun a b =>
  inferInstanceAs (Decidable (b.lastModified ≤ a.lastModified))

instance : IsTotal ObjectInfo newestFirst :=
  ⟨fun a b => (le_total b.lastModified a.lastModified).imp id id⟩

instance : IsTrans ObjectInfo newestFirst :=
  ⟨fun _ _ _ h1 h2 => le_trans h2 h1⟩

def sortNewestFirst (l : List ObjectInfo) : List ObjectInfo :=
  List.insertionSort newestFirst l

/-- The objects `snapshotRetention` deletes: nothing when retention is
disabled (< 1) or when the prefixed listing does not exceed the retention
count; otherwise everything past the first `retention` entries of the
newest-first ordering, in that order. -/
def snapshotRetentionDeleted (cfg : Control) (bucket : List ObjectInfo) :
    List ObjectInfo :=
  if cfg.etcdSnapshotRetention < 1 then []
  else
    let files := listObjects bucket (snapshotPfx cfg) true
    if (files.length : Int) ≤ cfg.etcdSnapshotRetention then []
    else (sortNewestFirst files).drop cfg.etcdSnapshotRetention.toNat

/-- One `snapshotRetention` pass: the deletions performed (in order) and
the bucket state afterwards (`client.RemoveObject` on each deleted key). -/
def snapshotRetention (cfg : Control) (bucket : List ObjectInfo) :
    List ObjectInfo × List ObjectInfo :=
  let deleted := snapshotRetentionDeleted cfg bucket
  (deleted, bucket.filter (fun o => !(deleted.any (fun d => d.key == o.key))))

/-! Section: concrete fixtures used by witnesses. -/

/-- A representative configuration. -/
def cfg0 : Control :=
  { etcdS3 := true, etcdS3Endpoint := "s3.example.com", etcdS3EndpointCA := "",
    etcdS3SkipSSLVerify := false, etcdS3AccessKey := "key", etcdS3SecretKey := "secret",
    etcdS3BucketName := "bkt", etcdS3Region := "us-east-1", etcdS3Folder := "etcd-snaps",
    etcdS3Insecure := false, etcdSnapshotName := "snapshot",
    etcdSnapshotRetention := 3, clusterResetRestorePath := "snapshot-1" }

/-- A representative environment: one base64-decodable CA reference that
yields a valid certificate, one that yields PEM garbage, no readable
files, and an existing bucket. -/
def env0 : S3Env :=
  { base64DecodeCA := fun s =>
      if s = "GOODCA64" then some { hasPemBlock := true, pemBlockParses := true }
      else if s = "BADCA64" then some { hasPemBlock := false, pemBlockParses := false }
      else none
    readFileCA := fun _ => .error "open: no such file or directory"
    bucketExists := fun _ => .ok true }

/-- Five snapshot objects under the `cfg0` retention scan, times 1 < 2 <
3 < 4 < 5, deliberately out of order. -/
def bucket5 : List ObjectInfo :=
  [⟨"etcd-snaps/snapshot-3", 3, 9⟩, ⟨"etcd-snaps/snapshot-1", 1, 9⟩,
   ⟨"etcd-snaps/snapshot-5", 5, 9⟩, ⟨"etcd-snaps/snapshot-2", 2, 9⟩,
   ⟨"etcd-snaps/snapshot-4", 4, 9⟩]

/-! Section: claim theorems. -/

/-- Claim C3: for every configuration with an empty bucket name, `NewS3`
fails immediately with the configuration error and returns no handle,
with no transport construction and no network call attempted (empty
event trace). -/
theorem newS3_empty_bucket_fails (env : S3Env) (cfg : Control)
    (h : cfg.etcdS3BucketName = "") :
    newS3 env cfg = (.error "s3 bucket name was not set", []) := by
  simp [newS3, h]

/-- Witness for C3 at a concrete configuration. -/
theorem newS3_empty_bucket_fails_witness :
    { cfg0 with etcdS3BucketName := "" }.etcdS3BucketName = "" ∧
      newS3 env0 { cfg0 with etcdS3BucketName := "" } =
        (.error "s3 bucket name was not set", []) :=
  ⟨by decide, newS3_empty_bucket_fails env0 _ (by decide)⟩

/-- Claim C10: with no custom CA configured, TLS verification is skipped
only when both the `EtcdS3` flag and the skip-verify flag are set; with
skip-verify set but `EtcdS3` unset (or vice versa) the default transport
is left unchanged. -/
theorem transport_skip_verify_needs_both_flags (env : S3Env) (cfg : Control)
    (h : cfg.etcdS3EndpointCA = "") :
    (cfg.etcdS3 = true → cfg.etcdS3SkipSSLVerify = true →
      buildTransport env cfg =
        .ok { tlsClientConfig := some { rootCAs := none, insecureSkipVerify := true } }) ∧
    (cfg.etcdS3 = false → buildTransport env cfg = .ok Transport.default) ∧
    (cfg.etcdS3SkipSSLVerify = false → buildTransport env cfg = .ok Transport.default) := by
  refine ⟨fun h1 h2 => ?_, fun h1 => ?_, fun h1 => ?_⟩ <;>
    simp [buildTransport, h, h1, Transport.default]
  simp [h2]

/-- Witness for C10: skip-verify set, `EtcdS3` unset, default transport
untouched. -/
theorem transport_skip_verify_needs_both_flags_witness :
    { cfg0 with etcdS3 := false, etcdS3SkipSSLVerify := true }.etcdS3EndpointCA = "" ∧
      buildTransport env0 { cfg0 with etcdS3 := false, etcdS3SkipSSLVerify := true } =
        .ok Transport.default :=
  ⟨by decide,
    (transport_skip_verify_needs_both_flags env0 _ (by decide)).2.1 (by decide)⟩

/-- Claim C9 counterexample: for an endpoint containing the legacy
vendor's substring `aliyun`, the selected addressing mode is DNS
(virtual-host-style), not path-style as the claim states. -/
theorem bucketLookupType_aliyun_not_path :
    stringContains "oss-cn.aliyuncs.com" "aliyun" = true ∧
      bucketLookupType "oss-cn.aliyuncs.com" ≠ BucketLookupType.path := by
  exact ⟨by decide, by decide⟩

/-- Claim C9 amended: addressing mode is a simple substring match on the
endpoint: endpoints containing `aliyun` select DNS (virtual-host-style)
addressing, all others select automatic detection. -/
theorem bucketLookupType_substring_match (endpoint : String) :
    (stringContains endpoint "aliyun" = true →
      bucketLookupType endpoint = BucketLookupType.dns) ∧
    (stringContains endpoint "aliyun" = false →
      bucketLookupType endpoint = BucketLookupType.auto) := by
  constructor <;> intro h <;> simp [bucketLookupType, h]

/-- Witness for the amended C9 at a concrete aliyun endpoint. -/
theorem bucketLookupType_substring_match_witness :
    stringContains "oss-cn.aliyuncs.com" "aliyun" = true ∧
      bucketLookupType "oss-cn.aliyuncs.com" = BucketLookupType.dns :=
  ⟨by decide, (bucketLookupType_substring_match "oss-cn.aliyuncs.com").1 (by decide)⟩

/-- Claim C4: the CA reference is decoded by trying base64 first and
falling back to a file read; a decoded byte sequence that is a valid
PEM-encoded parseable certificate never raises the invalid-certificate
error (the transport gets the cert pool and the independent skip-verify
flag); one that is not PEM-decodable or not parseable always does, and
`NewS3` fails with that error. -/
theorem setTransportCA_validates (env : S3Env) (tr : Transport)
    (caRef : String) (skip : Bool) (b : CABytes)
    (h : readS3EndpointCA env caRef = .ok b) :
    (∀ b2, env.base64DecodeCA caRef = some b2 → readS3EndpointCA env caRef = .ok b2) ∧
    (env.base64DecodeCA caRef = none → readS3EndpointCA env caRef = env.readFileCA caRef) ∧
    (isValidCertificate b = true →
      setTransportCA env tr caRef skip =
        .ok { tr with tlsClientConfig := some (TLSClientConfig.mk (some b) skip) }) ∧
    (isValidCertificate b = false →
      setTransportCA env tr caRef skip =
        .error "endpoint-ca is not a valid x509 certificate") ∧
    (∀ cfg : Control, cfg.etcdS3EndpointCA = caRef → caRef ≠ "" →
      cfg.etcdS3BucketName ≠ "" → isValidCertificate b = false →
      (newS3 env cfg).1 = .error "endpoint-ca is not a valid x509 certificate") := by
  refine ⟨fun b2 h2 => ?_, fun h2 => ?_, fun hv => ?_, fun hv => ?_,
    fun cfg hca hne hbkt hv => ?_⟩
  · simp [readS3EndpointCA, h2]
  · simp [readS3EndpointCA, h2]
  · simp [setTransportCA, h, hv]
  · simp [setTransportCA, h, hv]
  · have hset : setTransportCA env Transport.default caRef cfg.etcdS3SkipSSLVerify =
        .error "endpoint-ca is not a valid x509 certificate" := by
      simp [setTransportCA, h, hv]
    simp [newS3, hbkt, buildTransport, hca, hne, hset]

/-- Witness for C4: a base64-decodable CA reference yielding PEM garbage
is rejected with the invalid-certificate error. -/
theorem setTransportCA_validates_witness :
    readS3EndpointCA env0 "BADCA64" = .ok (CABytes.mk false false) ∧
      isValidCertificate (CABytes.mk false false) = false ∧
      setTransportCA env0 Transport.default "BADCA64" false =
        .error "endpoint-ca is not a valid x509 certificate" :=
  ⟨by rfl, by decide,
    (setTransportCA_validates env0 Transport.default "BADCA64" false
      (CABytes.mk false false) (by rfl)).2.2.2.1 (by decide)⟩

/-- Claim C5: an upload failure yields a record with failed status whose
message is the standard base64 encoding of the error text, and both the
record and the error are returned; an upload success yields a record with
successful status and the reported transferred size, and no error. -/
theorem upload_outcome_record (cfg : Control) (snapshot : String) (now : Int) :
    (∀ e, (upload cfg snapshot now (.error e)).1.status = some SnapshotStatus.failed ∧
      (upload cfg snapshot now (.error e)).1.message = base64OfString e ∧
      (upload cfg snapshot now (.error e)).2.2 = some e) ∧
    (∀ info : UploadInfo,
      (upload cfg snapshot now (.ok info)).1.status = some SnapshotStatus.successful ∧
      (upload cfg snapshot now (.ok info)).1.size = info.size ∧
      (upload cfg snapshot now (.ok info)).2.2 = none) := by
  constructor <;> intro x <;> refine ⟨?_, ?_, ?_⟩ <;> simp [upload]

/-- Claim C6: the destination key is the folder prefix path-joined with
the file's base name; a name with the recognized compressed-archive
extension is uploaded as `application/zip` with the compressed flag set,
any other name as `application/octet-stream` with it clear. -/
theorem upload_key_and_classification (cfg : Control) (snapshot : String)
    (now : Int) (outcome : Except String UploadInfo) :
    (upload cfg snapshot now outcome).2.1.key =
        pathJoin cfg.etcdS3Folder (pathBase snapshot) ∧
    (upload cfg snapshot now outcome).2.1.bucket = cfg.etcdS3BucketName ∧
    (strEndsWith snapshot compressedExtension = true →
      (upload cfg snapshot now outcome).1.compressed = true ∧
      (upload cfg snapshot now outcome).2.1.contentType = "application/zip") ∧
    (strEndsWith snapshot compressedExtension = false →
      (upload cfg snapshot now outcome).1.compressed = false ∧
      (upload cfg snapshot now outcome).2.1.contentType = "application/octet-stream") := by
  refine ⟨?_, ?_, fun h => ⟨?_, ?_⟩, fun h => ⟨?_, ?_⟩⟩
  · cases outcome <;> simp [upload]
  · cases outcome <;> simp [upload]
  all_goals cases outcome <;> simp [upload, h]

/-- Witness for C6: uploading `snapshot-20240101.zip` yields
compressed = true, content type `application/zip`, and key
`etcd-snaps/snapshot-20240101.zip`. -/
theorem upload_key_and_classification_witness :
    strEndsWith "/data/snapshot-20240101.zip" compressedExtension = true ∧
      (upload cfg0 "/data/snapshot-20240101.zip" 7 (.ok ⟨123⟩)).2.1.key =
        pathJoin "etcd-snaps" (pathBase "/data/snapshot-20240101.zip") ∧
      (upload cfg0 "/data/snapshot-20240101.zip" 7 (.ok ⟨123⟩)).1.compressed = true ∧
      (upload cfg0 "/data/snapshot-20240101.zip" 7 (.ok ⟨123⟩)).2.1.contentType =
        "application/zip" ∧
      (upload cfg0 "/data/snapshot-20240101.zip" 7 (.ok ⟨123⟩)).2.1.key =
        "etcd-snaps/snapshot-20240101.zip" :=
  ⟨by decide,
    (upload_key_and_classification cfg0 "/data/snapshot-20240101.zip" 7 (.ok ⟨123⟩)).1,
    ((upload_key_and_classification cfg0 "/data/snapshot-20240101.zip" 7
        (.ok ⟨123⟩)).2.2.1 (by decide)).1,
    ((upload_key_and_classification cfg0 "/data/snapshot-20240101.zip" 7
        (.ok ⟨123⟩)).2.2.1 (by decide)).2,
    by decide⟩

/-- Claim C2 counterexample: downloading the nonexistent key
`etcd-snaps/snapshot-9` returns the NoSuchKey error — surfaced by the
first `Stat` on the lazily-fetched minio object, after `os.Create` has
already made the destination — and leaves an empty destination file
present, not, as the claim states, no error and an absent destination. -/
theorem download_absent_counterexample :
    (download { cfg0 with clusterResetRestorePath := "snapshot-9" }
        (getObject bucket5 (pathJoin "etcd-snaps" "snapshot-9"))
        (.ok "/var/lib/snapshots") []).error =
      some "The specified key does not exist." ∧
      (download { cfg0 with clusterResetRestorePath := "snapshot-9" }
        (getObject bucket5 (pathJoin "etcd-snaps" "snapshot-9"))
        (.ok "/var/lib/snapshots") []).fs =
      [("/var/lib/snapshots/snapshot-9", 0)] :=
  ⟨by decide, by decide⟩

/-- Claim C2 amended: for a requested remote name whose key (non-empty,
so `GetObject` accepts it) does not exist in the bucket, `Download`
returns the NoSuchKey error surfaced by the first `Stat` on the
lazily-fetched object, after `os.Create` has already created the
destination, which is left present and empty; only an immediate
`GetObject` error (argument validation or context cancellation) is the
non-fatal no-op that returns no error and leaves the destination
absent. -/
theorem download_absent_returns_stat_error (cfg : Control)
    (bucket : List ObjectInfo) (fs : List (String × Int)) (dir : String)
    (hkey : pathJoin cfg.etcdS3Folder cfg.clusterResetRestorePath ≠ "")
    (habs : ∀ o ∈ bucket,
      o.key ≠ pathJoin cfg.etcdS3Folder cfg.clusterResetRestorePath) :
    download cfg
        (getObject bucket (pathJoin cfg.etcdS3Folder cfg.clusterResetRestorePath))
        (.ok dir) fs =
      { fs := (pathJoin dir cfg.clusterResetRestorePath, 0) ::
          fs.filter (fun p => p.1 != pathJoin dir cfg.clusterResetRestorePath),
        resolvedRestorePath := none,
        error := some "The specified key does not exist." } ∧
    (∀ msg snapDir, download cfg (.error msg) snapDir fs =
      { fs := fs, resolvedRestorePath := none, error := none }) := by
  refine ⟨?_, fun msg snapDir => rfl⟩
  have hfind : bucket.find?
      (fun o => o.key == pathJoin cfg.etcdS3Folder cfg.clusterResetRestorePath) = none := by
    rw [List.find?_eq_none]
    intro o ho
    simpa using habs o ho
  simp [getObject, hkey, hfind, download]

/-- Witness for the amended C2 at the concrete nonexistent key
`etcd-snaps/snapshot-9`. -/
theorem download_absent_returns_stat_error_witness :
    pathJoin "etcd-snaps" "snapshot-9" ≠ "" ∧
      (∀ o ∈ bucket5, o.key ≠ pathJoin "etcd-snaps" "snapshot-9") ∧
      download { cfg0 with clusterResetRestorePath := "snapshot-9" }
        (getObject bucket5 (pathJoin "etcd-snaps" "snapshot-9"))
        (.ok "/var/lib/snapshots") [] =
      { fs := [("/var/lib/snapshots/snapshot-9", 0)],
        resolvedRestorePath := none,
        error := some "The specified key does not exist." } :=
  ⟨by decide, by decide,
    (download_absent_returns_stat_error
      { cfg0 with clusterResetRestorePath := "snapshot-9" } bucket5 []
      "/var/lib/snapshots" (by decide) (by decide)).1⟩

/-- A digit is neither `+` nor `-`. -/
theorem isDigit_ne_sign {c : Char} (h : c.isDigit = true) : c ≠ '+' ∧ c ≠ '-' := by
  constructor <;> intro he <;> subst he <;> simp [Char.isDigit] at h

/-- Claim C7 counterexample: an object whose trailing segment after the
last hyphen is the 20-digit string `99999999999999999999` — numeric, but
beyond the 64-bit range `strconv.ParseInt` enforces — gets the object's
last-modified time as its timestamp, not the numeric value of those
digits. -/
theorem snapshot_timestamp_overflow_counterexample :
    (afterLastHyphen (cutSuffix
        (pathBase "etcd-snaps/snapshot-99999999999999999999")
        compressedExtension).1).data.all Char.isDigit = true ∧
    (snapshotRecordOf cfg0
        (ObjectInfo.mk "etcd-snaps/snapshot-99999999999999999999" 42 10)).createdAt = 42 ∧
    (snapshotRecordOf cfg0
        (ObjectInfo.mk "etcd-snaps/snapshot-99999999999999999999" 42 10)).createdAt ≠
      (digitsVal (afterLastHyphen (cutSuffix
          (pathBase "etcd-snaps/snapshot-99999999999999999999")
          compressedExtension).1) : Int) :=
  ⟨by decide, by decide, by decide⟩

/-- Claim C7 amended: the reconstructed timestamp is the value parsed by
`strconv.ParseInt` from the segment after the last hyphen of the
suffix-stripped base name whenever that parse succeeds — in particular
the numeric value of an all-digit segment that fits in a signed 64-bit
integer; whenever the parse fails (a non-numeric segment, an empty one,
or an out-of-range value) the timestamp is the object's last-modified
time, and listing never fails over it. -/
theorem snapshot_timestamp_parse (cfg : Control) (obj : ObjectInfo) :
    (∀ v, parseInt64 (afterLastHyphen
          (cutSuffix (pathBase obj.key) compressedExtension).1) = some v →
        (snapshotRecordOf cfg obj).createdAt = v) ∧
    (parseInt64 (afterLastHyphen
          (cutSuffix (pathBase obj.key) compressedExtension).1) = none →
        (snapshotRecordOf cfg obj).createdAt = obj.lastModified) ∧
    (∀ tail : String, tail.data ≠ [] → tail.data.all Char.isDigit = true →
        (digitsValL tail.data : Int) ≤ 2 ^ 63 - 1 →
        parseInt64 tail = some ((digitsValL tail.data : Nat) : Int)) ∧
    (∀ tail : String, tail.data.all Char.isDigit = false →
        (∀ c rest, tail.data = c :: rest → c ≠ '+' ∧ c ≠ '-') →
        parseInt64 tail = none) ∧
    parseInt64 "" = none := by
  refine ⟨fun v h => ?_, fun h => ?_, fun tail h1 h2 h3 => ?_, fun tail h1 h2 => ?_, rfl⟩
  · simp [snapshotRecordOf, snapshotTimestamp, h]
  · simp [snapshotRecordOf, snapshotTimestamp, h]
  · rcases hd : tail.data with _ | ⟨c, rest⟩
    · exact absurd hd h1
    · rw [hd] at h2 h3
      have hdig : c.isDigit = true := by
        have h2' := h2
        rw [List.all_cons, Bool.and_eq_true] at h2'
        exact h2'.1
      obtain ⟨hp, hm⟩ := isDigit_ne_sign hdig
      have hnn : (0 : Int) ≤ (digitsValL (c :: rest) : Int) := Int.natCast_nonneg _
      simp [parseInt64, hd, hp, hm, h2]
      refine ⟨le_trans (by norm_num) hnn, ?_⟩
      have h3' : (digitsValL (c :: rest) : Int) ≤ ((9223372036854775807 : Nat) : Int) := by
        exact le_trans h3 (by norm_num)
      exact_mod_cast h3'
  · rcases hd : tail.data with _ | ⟨c, rest⟩
    · simp [parseInt64, hd]
    · obtain ⟨hp, hm⟩ := h2 c rest hd
      rw [hd] at h1
      simp only [parseInt64, hd, if_neg hp, if_neg hm]
      rw [if_neg (by simp), if_neg (by simp [h1])]

/-- Witness for the amended C7: a parseable trailing timestamp is used
(`snapshot-1699.zip`, stripped to `snapshot-1699`, parses to 1699). -/
theorem snapshot_timestamp_parse_witness :
    parseInt64 (afterLastHyphen (cutSuffix
        (pathBase "etcd-snaps/snapshot-1699.zip") compressedExtension).1) = some 1699 ∧
      (snapshotRecordOf cfg0 (ObjectInfo.mk "etcd-snaps/snapshot-1699.zip" 7 5)).createdAt = 1699 :=
  ⟨by decide,
    (snapshot_timestamp_parse cfg0 (ObjectInfo.mk "etcd-snaps/snapshot-1699.zip" 7 5)).1
      1699 (by decide)⟩

/-- Claim C8 counterexample: with an empty folder the code lists with the
zero-value options — whole bucket but NOT recursive — so a nested
non-zero-size object that a recursive whole-bucket listing (the claim as
stated, `listSnapshotsSpecWords`) would return is missing from the
result. -/
theorem listSnapshots_empty_folder_not_recursive :
    listSnapshots { cfg0 with etcdS3Folder := "" }
        [ObjectInfo.mk "nested/snapshot-5" 100 7] = [] ∧
      (listSnapshotsSpecWords { cfg0 with etcdS3Folder := "" }
        [ObjectInfo.mk "nested/snapshot-5" 100 7]).length = 1 :=
  ⟨by decide, by decide⟩

/-- Claim C8 amended: a non-empty folder prefix is listed recursively
under the prefix; an empty folder prefix lists the whole bucket but only
at top level (keys with no further `/`); zero-byte objects are skipped
and never appear in the result mapping. -/
theorem listSnapshots_mem_iff (cfg : Control) (bucket : List ObjectInfo)
    (e : String × SnapshotFile) :
    e ∈ listSnapshots cfg bucket ↔
      ∃ o, o ∈ bucket ∧ o.size ≠ 0 ∧ strStartsWith o.key cfg.etcdS3Folder = true ∧
        (cfg.etcdS3Folder ≠ "" ∨
          (o.key.data.drop cfg.etcdS3Folder.data.length).contains '/' = false) ∧
        e = listEntryOf cfg o := by
  by_cases h : cfg.etcdS3Folder = ""
  · simp [listSnapshots, h, listObjects, List.mem_filter, strStartsWith,
      beginsWithL, show ("" : String).data = [] from rfl]
    aesop
  · simp [listSnapshots, h, listObjects, List.mem_filter]
    aesop

/-! Section: retention lemmas. -/

/-- With retention enabled, the disabled-branch of
`snapshotRetentionDeleted` is dead and the deletions are the tail of the
newest-first ordering past the retention count, when the listing exceeds
it. -/
theorem snapshotRetentionDeleted_eq (cfg : Control) (bucket : List ObjectInfo)
    (hR : 1 ≤ cfg.etcdSnapshotRetention) :
    snapshotRetentionDeleted cfg bucket =
      if ((listObjects bucket (snapshotPfx cfg) true).length : Int) ≤
          cfg.etcdSnapshotRetention then []
      else (sortNewestFirst (listObjects bucket (snapshotPfx cfg) true)).drop
        cfg.etcdSnapshotRetention.toNat := by
  rw [snapshotRetentionDeleted, if_neg (by omega)]

/-- Elements dropped past position `n` of the newest-first ordering are
strictly older than every element kept among the first `n`, provided the
last-modified times are pairwise distinct. -/
theorem sortNewestFirst_drop_lt (files : List ObjectInfo) (n : Nat)
    (hd : List.Pairwise (fun a b : ObjectInfo => a.lastModified ≠ b.lastModified) files) :
    ∀ d ∈ (sortNewestFirst files).drop n, ∀ k ∈ (sortNewestFirst files).take n,
      d.lastModified < k.lastModified := by
  have hperm : List.Perm (sortNewestFirst files) files := List.perm_insertionSort _ files
  have hsorted : List.Pairwise newestFirst (sortNewestFirst files) :=
    List.sorted_insertionSort _ files
  have hne : List.Pairwise (fun a b : ObjectInfo => a.lastModified ≠ b.lastModified)
      (sortNewestFirst files) :=
    (hperm.pairwise_iff (fun hxy => Ne.symm hxy)).mpr hd
  have h1 : List.Pairwise newestFirst
      ((sortNewestFirst files).take n ++ (sortNewestFirst files).drop n) := by
    rw [List.take_append_drop]; exact hsorted
  have h2 : List.Pairwise (fun a b : ObjectInfo => a.lastModified ≠ b.lastModified)
      ((sortNewestFirst files).take n ++ (sortNewestFirst files).drop n) := by
    rw [List.take_append_drop]; exact hne
  have c1 := (List.pairwise_append.mp h1).2.2
  have c2 := (List.pairwise_append.mp h2).2.2
  intro d hdm k hkm
  exact lt_of_le_of_ne (c1 k hkm d hdm) (fun e => c2 k hkm d hdm e.symm)

/-- After one retention pass the surviving objects under the snapshot
name scan number at most the retention count, so an immediate second
pass deletes nothing. -/
theorem snapshotRetention_second_run (cfg : Control) (bucket : List ObjectInfo)
    (hR : 1 ≤ cfg.etcdSnapshotRetention) :
    snapshotRetentionDeleted cfg (snapshotRetention cfg bucket).2 = [] := by
  have hkeep : ∀ deleted : List ObjectInfo,
      listObjects (bucket.filter
          (fun o => !(deleted.any (fun d => d.key == o.key)))) (snapshotPfx cfg) true =
        (listObjects bucket (snapshotPfx cfg) true).filter
          (fun o => !(deleted.any (fun d => d.key == o.key))) := by
    intro deleted
    rw [listObjects, listObjects, List.filter_filter, List.filter_filter]
    exact List.filter_congr (fun o _ => Bool.and_comm _ _)
  by_cases hN : ((listObjects bucket (snapshotPfx cfg) true).length : Int) ≤
      cfg.etcdSnapshotRetention
  · -- nothing was deleted: the bucket is unchanged and the count still fits
    have hdel : snapshotRetentionDeleted cfg bucket = [] := by
      rw [snapshotRetentionDeleted_eq cfg bucket hR, if_pos hN]
    rw [snapshotRetentionDeleted_eq _ _ hR, if_pos]
    show ((listObjects (snapshotRetention cfg bucket).2 (snapshotPfx cfg) true).length : Int) ≤ _
    rw [snapshotRetention]
    simp only [hdel, hkeep, List.any_nil, Bool.not_false, List.filter_true]
    exact hN
  · -- the overflow was deleted: the survivors number exactly the retention count
    push_neg at hN
    have hdel : snapshotRetentionDeleted cfg bucket =
        (sortNewestFirst (listObjects bucket (snapshotPfx cfg) true)).drop
          cfg.etcdSnapshotRetention.toNat := by
      rw [snapshotRetentionDeleted_eq cfg bucket hR, if_neg (by omega)]
    set files := listObjects bucket (snapshotPfx cfg) true with hfiles
    set n := cfg.etcdSnapshotRetention.toNat with hn
    set deleted := snapshotRetentionDeleted cfg bucket with hdeleted
    set keep : ObjectInfo → Bool :=
      (fun o => !(deleted.any (fun d => d.key == o.key))) with hkeepdef
    have hperm : List.Perm (sortNewestFirst files) files := List.perm_insertionSort _ files
    have hfilterperm : List.Perm (files.filter keep) ((sortNewestFirst files).filter keep) :=
      (hperm.filter keep).symm
    have hdropnil : ((sortNewestFirst files).drop n).filter keep = [] := by
      rw [List.filter_eq_nil_iff]
      intro d hdm
      have hdin : d ∈ deleted := by rw [hdel]; exact hdm
      simp only [hkeepdef, Bool.not_eq_true', Bool.not_eq_false]
      exact List.any_eq_true.mpr ⟨d, hdin, by simp⟩
    have hlen : (files.filter keep).length ≤ n := by
      calc (files.filter keep).length
          = ((sortNewestFirst files).filter keep).length := hfilterperm.length_eq
        _ = (((sortNewestFirst files).take n ++ (sortNewestFirst files).drop n).filter
              keep).length := by rw [List.take_append_drop]
        _ = (((sortNewestFirst files).take n).filter keep).length := by
              rw [List.filter_append, hdropnil, List.append_nil]
        _ ≤ ((sortNewestFirst files).take n).length := List.length_filter_le _ _
        _ ≤ n := by rw [List.length_take]; exact Nat.min_le_left _ _
    rw [snapshotRetentionDeleted_eq _ _ hR, if_pos]
    show ((listObjects (snapshotRetention cfg bucket).2 (snapshotPfx cfg) true).length : Int) ≤ _
    rw [snapshotRetention]
    simp only [← hdeleted, hkeep]
    rw [← hkeepdef]
    have hcast : (n : Int) = cfg.etcdSnapshotRetention := Int.toNat_of_nonneg (by omega)
    have := hlen
    omega

/-- Claim C1: with retention R ≥ 1 and N matching objects under the
snapshot name scan: when N ≤ R nothing is deleted; when N > R exactly
N − R objects are deleted — with pairwise-distinct last-modified times
they are precisely the oldest ones, strictly older than everything kept —
and an immediate second run deletes nothing. -/
theorem snapshotRetention_spec (cfg : Control) (bucket : List ObjectInfo)
    (hR : 1 ≤ cfg.etcdSnapshotRetention) :
    (((listObjects bucket (snapshotPfx cfg) true).length : Int) ≤
        cfg.etcdSnapshotRetention → snapshotRetentionDeleted cfg bucket = []) ∧
    (cfg.etcdSnapshotRetention <
        ((listObjects bucket (snapshotPfx cfg) true).length : Int) →
      ((snapshotRetentionDeleted cfg bucket).length : Int) =
          ((listObjects bucket (snapshotPfx cfg) true).length : Int) -
            cfg.etcdSnapshotRetention ∧
      (List.Pairwise (fun a b : ObjectInfo => a.lastModified ≠ b.lastModified)
          (listObjects bucket (snapshotPfx cfg) true) →
        ∀ d ∈ snapshotRetentionDeleted cfg bucket,
          ∀ k ∈ (sortNewestFirst (listObjects bucket (snapshotPfx cfg) true)).take
              cfg.etcdSnapshotRetention.toNat,
            d.lastModified < k.lastModified)) ∧
    snapshotRetentionDeleted cfg (snapshotRetention cfg bucket).2 = [] := by
  refine ⟨fun hN => ?_, fun hN => ⟨?_, fun hdist => ?_⟩, ?_⟩
  · rw [snapshotRetentionDeleted_eq cfg bucket hR, if_pos hN]
  · rw [snapshotRetentionDeleted_eq cfg bucket hR, if_neg (by omega)]
    have hplen : (sortNewestFirst (listObjects bucket (snapshotPfx cfg) true)).length =
        (listObjects bucket (snapshotPfx cfg) true).length :=
      (List.perm_insertionSort _ _).length_eq
    rw [List.length_drop, hplen]
    have hcast : (cfg.etcdSnapshotRetention.toNat : Int) = cfg.etcdSnapshotRetention :=
      Int.toNat_of_nonneg (by omega)
    omega
  · intro d hdm k hkm
    rw [snapshotRetentionDeleted_eq cfg bucket hR, if_neg (by omega)] at hdm
    exact sortNewestFirst_drop_lt _ _ hdist d hdm k hkm
  · exact snapshotRetention_second_run cfg bucket hR

/-- Witness for C1: retention 3 over five objects at times 1 < 2 < 3 <
4 < 5 deletes exactly N − R = 2 objects — the ones at times 1 and 2 —
leaves the rest, and a second run deletes nothing. -/
theorem snapshotRetention_spec_witness :
    (1 : Int) ≤ cfg0.etcdSnapshotRetention ∧
      cfg0.etcdSnapshotRetention <
        ((listObjects bucket5 (snapshotPfx cfg0) true).length : Int) ∧
      ((snapshotRetentionDeleted cfg0 bucket5).length : Int) =
          ((listObjects bucket5 (snapshotPfx cfg0) true).length : Int) -
            cfg0.etcdSnapshotRetention ∧
      snapshotRetentionDeleted cfg0 (snapshotRetention cfg0 bucket5).2 = [] ∧
      snapshotRetentionDeleted cfg0 bucket5 =
        [ObjectInfo.mk "etcd-snaps/snapshot-2" 2 9,
         ObjectInfo.mk "etcd-snaps/snapshot-1" 1 9] ∧
      (snapshotRetention cfg0 bucket5).2 =
        [ObjectInfo.mk "etcd-snaps/snapshot-3" 3 9,
         ObjectInfo.mk "etcd-snaps/snapshot-5" 5 9,
         ObjectInfo.mk "etcd-snaps/snapshot-4" 4 9] :=
  ⟨by decide, by decide,
    ((snapshotRetention_spec cfg0 bucket5 (by decide)).2.1 (by decide)).1,
    (snapshotRetention_spec cfg0 bucket5 (by decide)).2.2,
    by decide, by decide⟩

end K3sS3
